import Mathlib

/-
  Verification of the client-side game logic of the "unfairness" repository
  (an ultimatum-game web client).  The definitions below are a shallow
  embedding of the JavaScript functions in `src/unnamed/part_000` (the newer
  copy of `App.js`) and `src/frontend/src/App.js`; theorems establish the
  specification claims about them.
-/

namespace Unfairness

/-- The `player` field of a ledger message: the string values
`'human'` and `'ai'` used throughout the client. -/
inductive Player
  | human
  | ai
deriving DecidableEq, Repr

/-- The `role` field of a ledger message: the string values
`'proposer'` and `'decider'`. -/
inductive Role
  | proposer
  | decider
deriving DecidableEq, Repr

/-- One entry of `gameState.messages`.  `proposal` is null on decider events
and `decision` is null on proposer events (nulls are `none`).  The `tag`
field models JavaScript object identity: two structurally equal objects at
distinct heap addresses carry distinct tags, so Lean equality of `Message`
coincides with the reference equality `===` used by the client. -/
structure Message where
  player : Player
  role : Role
  proposal : Option Int := none
  decision : Option Bool := none
  message : List Char := []
  round_num : Nat := 0
  tag : Nat := 0
deriving DecidableEq, Repr

/-- The session object returned by the backend and stored in the `gameState`
React state: round counter, scores, termination data and the message ledger. -/
structure GameState where
  current_round : Nat
  game_over : Bool
  human_score : Int
  ai_score : Int
  winner : Option String := none
  player_name : Option String := none
  messages : List Message := []
deriving DecidableEq, Repr

/-- The string values returned by `getCurrentPhase`. -/
inductive Phase
  | start
  | game_over
  | human_propose
  | waiting_ai_decision
  | waiting_ai_proposal
  | human_decide
  | waiting
deriving DecidableEq, Repr

/-- Embedding of `getCurrentPhase` (identical in both copies of `App.js`):
`'start'` when there is no game state, `'game_over'` when the game ended,
`'human_propose'` on an empty message list, and otherwise a case split on
round parity and the last message (`messages[messages.length - 1]`). -/
def getCurrentPhase (gameState : Option GameState) : Phase :=
  match gameState with
  | none => Phase.start
  | some gs =>
    if gs.game_over then Phase.game_over
    else
      match gs.messages.getLast? with
      | none => Phase.human_propose
      | some lastMessage =>
        if gs.current_round % 2 = 1 then
          if lastMessage.role = Role.decider then Phase.human_propose
          else Phase.waiting_ai_decision
        else
          if lastMessage.role = Role.decider then Phase.waiting_ai_proposal
          else if lastMessage.player = Player.ai ∧ lastMessage.role = Role.proposer then
            Phase.human_decide
          else Phase.waiting

/-- The role of the last ledger message, when the ledger is nonempty. -/
def lastRole (gs : GameState) : Option Role :=
  gs.messages.getLast?.map Message.role

/-- The player of the last ledger message, when the ledger is nonempty. -/
def lastPlayer (gs : GameState) : Option Player :=
  gs.messages.getLast?.map Message.player

/-- Embedding of `isWinner` (identical in both copies of `App.js`): false on a
null state, otherwise `human_score > 30 || human_score - ai_score > 10`. -/
def isWinner (state : Option GameState) : Bool :=
  match state with
  | none => false
  | some s => decide (s.human_score > 30) || decide (s.human_score - s.ai_score > 10)

/-- A non-terminal state with an even round and an empty message list: the
shape on which `getCurrentPhase` answers `'human_propose'` in an even round. -/
def evenRoundEmptyState : GameState :=
  { current_round := 2
    game_over := false
    human_score := 0
    ai_score := 0
    winner := none
    player_name := none
    messages := [] }

/-- Unfolding of `getCurrentPhase` for a running game with an empty ledger. -/
lemma getCurrentPhase_of_last_none (gs : GameState) (hgo : gs.game_over = false)
    (hm : gs.messages.getLast? = none) :
    getCurrentPhase (some gs) = Phase.human_propose := by
  simp [getCurrentPhase, hgo, hm]

/-- Unfolding of `getCurrentPhase` for a running game with a nonempty ledger. -/
lemma getCurrentPhase_of_last_some (gs : GameState) (hgo : gs.game_over = false)
    (m : Message) (hm : gs.messages.getLast? = some m) :
    getCurrentPhase (some gs) =
      if gs.current_round % 2 = 1 then
        if m.role = Role.decider then Phase.human_propose
        else Phase.waiting_ai_decision
      else
        if m.role = Role.decider then Phase.waiting_ai_proposal
        else if m.player = Player.ai ∧ m.role = Role.proposer then Phase.human_decide
        else Phase.waiting := by
  simp [getCurrentPhase, hgo, hm]

/-- Claim C1, counterexample: on the non-terminal state with an even
`current_round` and an empty message list, `getCurrentPhase` returns
`'human_propose'`, so `'human_propose'` is not returned only in odd rounds. -/
theorem C1_counterexample :
    getCurrentPhase (some evenRoundEmptyState) = Phase.human_propose
      ∧ evenRoundEmptyState.game_over = false
      ∧ evenRoundEmptyState.current_round % 2 = 0 := by
  decide

/-- Claim C1 (amended): for every non-terminal state, once the message list
is nonempty `getCurrentPhase` returns `'human_propose'` only in odd rounds
(on an empty message list it returns `'human_propose'` in every round);
`'waiting_ai_proposal'` and `'human_decide'` are returned only in even
rounds; in an odd round with an empty message list or a last message of role
`'decider'` it returns `'human_propose'`, and in an even round with a last
message of role `'decider'` it returns `'waiting_ai_proposal'`. -/
theorem C1_phase_parity (gs : GameState) (hgo : gs.game_over = false) :
    (gs.messages ≠ [] → getCurrentPhase (some gs) = Phase.human_propose →
      gs.current_round % 2 = 1)
      ∧ (getCurrentPhase (some gs) = Phase.waiting_ai_proposal ∨
          getCurrentPhase (some gs) = Phase.human_decide →
          gs.current_round % 2 = 0)
      ∧ (gs.current_round % 2 = 1 →
          gs.messages = [] ∨ lastRole gs = some Role.decider →
          getCurrentPhase (some gs) = Phase.human_propose)
      ∧ (gs.current_round % 2 = 0 → lastRole gs = some Role.decider →
          getCurrentPhase (some gs) = Phase.waiting_ai_proposal) := by
  rcases hm : gs.messages.getLast? with _ | m
  · have hnil : gs.messages = [] := List.getLast?_eq_none_iff.mp hm
    have hphase : getCurrentPhase (some gs) = Phase.human_propose :=
      getCurrentPhase_of_last_none gs hgo hm
    refine ⟨fun hne _ => absurd hnil hne, ?_, fun _ _ => hphase, ?_⟩
    · intro hcase
      rcases hcase with hcase | hcase <;> rw [hphase] at hcase <;>
        exact absurd hcase (by decide)
    · intro _ hlast
      rw [lastRole, hm] at hlast
      exact absurd hlast (by simp)
  · have hphase := getCurrentPhase_of_last_some gs hgo m hm
    have hne : gs.messages ≠ [] := by
      intro hnil
      rw [hnil] at hm
      exact absurd hm (by simp)
    have hlr : lastRole gs = some m.role := by
      simp [lastRole, hm]
    by_cases hr : gs.current_round % 2 = 1
    · by_cases hd : m.role = Role.decider
      · rw [if_pos hr, if_pos hd] at hphase
        refine ⟨fun _ _ => hr, ?_, fun _ _ => hphase, fun hr0 _ => absurd hr0 (by omega)⟩
        intro hcase
        rw [hphase] at hcase
        rcases hcase with hcase | hcase <;> exact absurd hcase (by decide)
      · rw [if_pos hr, if_neg hd] at hphase
        refine ⟨fun _ hpp => ?_, ?_, fun _ hcase => ?_, fun hr0 _ => absurd hr0 (by omega)⟩
        · rw [hphase] at hpp
          exact absurd hpp (by decide)
        · intro hcase
          rw [hphase] at hcase
          rcases hcase with hcase | hcase <;> exact absurd hcase (by decide)
        · rcases hcase with hcase | hcase
          · exact absurd hcase hne
          · rw [hlr] at hcase
            exact absurd (Option.some.inj hcase) hd
    · have hr0 : gs.current_round % 2 = 0 := by omega
      rw [if_neg hr] at hphase
      by_cases hd : m.role = Role.decider
      · rw [if_pos hd] at hphase
        refine ⟨fun _ hpp => ?_, fun _ => hr0, fun hr1 _ => absurd hr1 hr, fun _ _ => hphase⟩
        rw [hphase] at hpp
        exact absurd hpp (by decide)
      · rw [if_neg hd] at hphase
        refine ⟨fun _ hpp => ?_, fun _ => hr0, fun hr1 _ => absurd hr1 hr, fun _ hcase => ?_⟩
        · by_cases hai : m.player = Player.ai ∧ m.role = Role.proposer
          · rw [if_pos hai] at hphase
            rw [hphase] at hpp
            exact absurd hpp (by decide)
          · rw [if_neg hai] at hphase
            rw [hphase] at hpp
            exact absurd hpp (by decide)
        · rw [hlr] at hcase
          exact absurd (Option.some.inj hcase) hd

/-- A fresh state in round 1, used to instantiate `C1_phase_parity`. -/
def round1FreshState : GameState :=
  { current_round := 1
    game_over := false
    human_score := 0
    ai_score := 0
    winner := none
    player_name := none
    messages := [] }

/-- Claim C1, witness: `C1_phase_parity` applied to the fresh round-1 state. -/
theorem C1_phase_parity_witness :
    round1FreshState.game_over = false ∧
      getCurrentPhase (some round1FreshState) = Phase.human_propose :=
  ⟨rfl, (C1_phase_parity round1FreshState rfl).2.2.1 (by decide) (Or.inl rfl)⟩

/-- Claim C10: `getCurrentPhase` returns `'human_decide'` only when the game
is not over, `current_round` is even, and the last message is a proposer
event whose player is `'ai'`; in an even round whose last message is a
proposer event by the human it returns `'waiting'` instead. -/
theorem C10_human_decide_shape (gs : GameState) :
    (getCurrentPhase (some gs) = Phase.human_decide →
      gs.game_over = false ∧ gs.current_round % 2 = 0 ∧
        lastRole gs = some Role.proposer ∧ lastPlayer gs = some Player.ai)
      ∧ (gs.game_over = false → gs.current_round % 2 = 0 →
          lastRole gs = some Role.proposer → lastPlayer gs = some Player.human →
          getCurrentPhase (some gs) = Phase.waiting) := by
  by_cases hgo : gs.game_over
  · constructor
    · intro hpp
      have : getCurrentPhase (some gs) = Phase.game_over := by
        simp [getCurrentPhase, hgo]
      rw [this] at hpp
      exact absurd hpp (by decide)
    · intro hgo' _ _ _
      rw [hgo'] at hgo
      exact absurd hgo (by decide)
  · have hgo' : gs.game_over = false := by
      exact Bool.not_eq_true gs.game_over ▸ eq_false_of_ne_true hgo
    rcases hm : gs.messages.getLast? with _ | m
    · have hphase := getCurrentPhase_of_last_none gs hgo' hm
      constructor
      · intro hpp
        rw [hphase] at hpp
        exact absurd hpp (by decide)
      · intro _ _ hrole _
        rw [lastRole, hm] at hrole
        exact absurd hrole (by simp)
    · have hphase := getCurrentPhase_of_last_some gs hgo' m hm
      have hlr : lastRole gs = some m.role := by
        simp [lastRole, hm]
      have hlp : lastPlayer gs = some m.player := by
        simp [lastPlayer, hm]
      constructor
      · intro hpp
        rw [hphase] at hpp
        by_cases hr : gs.current_round % 2 = 1
        · rw [if_pos hr] at hpp
          by_cases hd : m.role = Role.decider
          · rw [if_pos hd] at hpp
            exact absurd hpp (by decide)
          · rw [if_neg hd] at hpp
            exact absurd hpp (by decide)
        · rw [if_neg hr] at hpp
          by_cases hd : m.role = Role.decider
          · rw [if_pos hd] at hpp
            exact absurd hpp (by decide)
          · rw [if_neg hd] at hpp
            by_cases hai : m.player = Player.ai ∧ m.role = Role.proposer
            · refine ⟨hgo', by omega, ?_, ?_⟩
              · rw [hlr, hai.2]
              · rw [hlp, hai.1]
            · rw [if_neg hai] at hpp
              exact absurd hpp (by decide)
      · intro _ hr0 hrole hplayer
        rw [hlr] at hrole
        rw [hlp] at hplayer
        have hrole' : m.role = Role.proposer := Option.some.inj hrole
        have hplayer' : m.player = Player.human := Option.some.inj hplayer
        rw [hphase, if_neg (by omega), if_neg (by rw [hrole']; decide),
          if_neg (by rw [hrole', hplayer']; simp)]

/-- An even-round state whose last ledger message is an AI proposal. -/
def aiProposalState : GameState :=
  { current_round := 2
    game_over := false
    human_score := 7
    ai_score := 3
    winner := none
    player_name := none
    messages := [{ player := Player.ai, role := Role.proposer, proposal := some 4,
                   round_num := 2, tag := 1 }] }

/-- An even-round state whose last ledger message is a human proposal (an
off-schedule shape). -/
def humanProposalEvenState : GameState :=
  { current_round := 2
    game_over := false
    human_score := 7
    ai_score := 3
    winner := none
    player_name := none
    messages := [{ player := Player.human, role := Role.proposer, proposal := some 4,
                   round_num := 2, tag := 1 }] }

/-- Claim C10, witness: `C10_human_decide_shape` applied to a state in the
`'human_decide'` phase and to the off-schedule even-round state. -/
theorem C10_human_decide_shape_witness :
    (aiProposalState.game_over = false ∧ aiProposalState.current_round % 2 = 0 ∧
      lastRole aiProposalState = some Role.proposer ∧
      lastPlayer aiProposalState = some Player.ai)
      ∧ getCurrentPhase (some humanProposalEvenState) = Phase.waiting :=
  ⟨(C10_human_decide_shape aiProposalState).1 (by decide),
    (C10_human_decide_shape humanProposalEvenState).2 rfl (by decide) (by decide) (by decide)⟩

/-- Claim C3: `isWinner` returns true iff `human_score > 30` or
`human_score - ai_score > 10`, returns false on a null state, and reads only
the scores — it is independent of the session's `winner` field. -/
theorem C3_isWinner_spec (s : GameState) :
    (isWinner (some s) = true ↔
      s.human_score > 30 ∨ s.human_score - s.ai_score > 10)
      ∧ isWinner none = false
      ∧ (∀ w : Option String, isWinner (some { s with winner := w }) = isWinner (some s)) := by
  refine ⟨?_, rfl, fun w => rfl⟩
  simp [isWinner]

/-- The share pair rendered for a message in the game-history list: the JSX
guard `msg.role === 'proposer' && msg.proposal !== null` selects the span
"Proposed {msg.proposal} points for you, {10 - msg.proposal} points for AI";
the pair is (human share, AI share). -/
def historyProposalShares (msg : Message) : Option (Int × Int) :=
  if msg.role = Role.proposer then
    match msg.proposal with
    | some p => some (p, 10 - p)
    | none => none
  else none

/-- The share pair rendered by the `human_decide` panel: it takes
`lastProposal = messages[messages.length - 1]` and renders
"{lastProposal.proposal} points for you, {10 - lastProposal.proposal} points
for AI" (no pair when the ledger is empty or the last message carries no
proposal). -/
def decidePanelShares (gs : GameState) : Option (Int × Int) :=
  match gs.messages.getLast? with
  | none => none
  | some lastProposal =>
    match lastProposal.proposal with
    | some p => some (p, 10 - p)
    | none => none

/-- Claim C2: a proposer message with proposal `p` is always rendered with
human share `p` and counterpart share `10 - p`, whether the proposing player
is the human or the AI, both in the game history and in the decide panel. -/
theorem C2_human_side_units (msg : Message) (p : Int)
    (hrole : msg.role = Role.proposer) (hp : msg.proposal = some p) :
    historyProposalShares msg = some (p, 10 - p)
      ∧ historyProposalShares { msg with player := Player.human } = some (p, 10 - p)
      ∧ historyProposalShares { msg with player := Player.ai } = some (p, 10 - p)
      ∧ (∀ gs : GameState, gs.messages.getLast? = some msg →
          decidePanelShares gs = some (p, 10 - p)) := by
  refine ⟨?_, ?_, ?_, fun gs hgs => ?_⟩
  · simp [historyProposalShares, hrole, hp]
  · simp [historyProposalShares, hrole, hp]
  · simp [historyProposalShares, hrole, hp]
  · simp [decidePanelShares, hgs, hp]

/-- An AI proposer message claiming 4 points for the human side. -/
def aiProposal4 : Message :=
  { player := Player.ai, role := Role.proposer, proposal := some 4, round_num := 2, tag := 1 }

/-- Claim C2, witness: `C2_human_side_units` applied to an AI proposer
message with proposal 4, inside a concrete game state. -/
theorem C2_human_side_units_witness :
    historyProposalShares aiProposal4 = some (4, 6)
      ∧ decidePanelShares aiProposalState = some (4, 6) := by
  have h := C2_human_side_units aiProposal4 4 rfl rfl
  exact ⟨h.1, h.2.2.2 aiProposalState (by decide)⟩

/-- The pending callbacks scheduled with `setTimeout` by the success paths of
`makeProposal` and `makeDecision`. -/
inductive ClientAction
  | aiPropose
deriving DecidableEq, Repr

/-- The React state touched by the success paths of `makeProposal` and
`makeDecision`, together with the list of scheduled callbacks. -/
structure ClientState where
  gameState : Option GameState := none
  proposalMessage : List Char := []
  decisionMessage : List Char := []
  scheduled : List ClientAction := []
deriving DecidableEq, Repr

/-- The guard shared by `makeProposal` and `makeDecision`:
`data.current_round > gameState.current_round && !data.game_over &&
data.current_round % 2 === 0`. -/
def schedulesAiPropose (prevRound : Nat) (data : GameState) : Bool :=
  decide (data.current_round > prevRound) && !data.game_over &&
    decide (data.current_round % 2 = 0)

/-- Success path of `makeProposal`: store the response in `gameState`, clear
`proposalMessage`, and schedule `aiPropose` when the guard holds. -/
def makeProposalSuccess (prev : GameState) (data : GameState) (st : ClientState) :
    ClientState :=
  let st1 := { st with gameState := some data, proposalMessage := [] }
  if schedulesAiPropose prev.current_round data then
    { st1 with scheduled := st1.scheduled ++ [ClientAction.aiPropose] }
  else st1

/-- Success path of `makeDecision`: store the response in `gameState`, clear
`decisionMessage`, and schedule `aiPropose` when the guard holds. -/
def makeDecisionSuccess (prev : GameState) (data : GameState) (st : ClientState) :
    ClientState :=
  let st1 := { st with gameState := some data, decisionMessage := [] }
  if schedulesAiPropose prev.current_round data then
    { st1 with scheduled := st1.scheduled ++ [ClientAction.aiPropose] }
  else st1

/-- Claim C4: after a successful propose or decide response, `aiPropose` is
scheduled iff the returned round is strictly greater than the previous round,
the game is not over, and the returned round is even; it is never scheduled
in an odd round or after the game has ended. -/
theorem C4_aiPropose_schedule (prev data : GameState) (st : ClientState) :
    ((makeProposalSuccess prev data st).scheduled =
        st.scheduled ++ [ClientAction.aiPropose] ↔
      prev.current_round < data.current_round ∧ data.game_over = false ∧
        data.current_round % 2 = 0)
      ∧ ((makeDecisionSuccess prev data st).scheduled =
            st.scheduled ++ [ClientAction.aiPropose] ↔
          prev.current_round < data.current_round ∧ data.game_over = false ∧
            data.current_round % 2 = 0)
      ∧ (data.current_round % 2 = 1 ∨ data.game_over = true →
          (makeProposalSuccess prev data st).scheduled = st.scheduled ∧
            (makeDecisionSuccess prev data st).scheduled = st.scheduled) := by
  have hguard : schedulesAiPropose prev.current_round data = true ↔
      prev.current_round < data.current_round ∧ data.game_over = false ∧
        data.current_round % 2 = 0 := by
    simp [schedulesAiPropose]
    constructor <;> intro h <;> simp [h]
  have hself : ¬st.scheduled ++ [ClientAction.aiPropose] = st.scheduled := by
    intro h
    have := congrArg List.length h
    simp at this
  by_cases hg : schedulesAiPropose prev.current_round data = true
  · have hcond := hguard.mp hg
    refine ⟨?_, ?_, ?_⟩
    · simp [makeProposalSuccess, hg, hcond]
    · simp [makeDecisionSuccess, hg, hcond]
    · rintro (hodd | hover)
      · omega
      · rw [hover] at hcond
        exact absurd hcond.2.1 (by decide)
  · have hcond : ¬(prev.current_round < data.current_round ∧ data.game_over = false ∧
        data.current_round % 2 = 0) := fun hc => hg (hguard.mpr hc)
    have hg' : schedulesAiPropose prev.current_round data = false :=
      Bool.not_eq_true _ ▸ eq_false_of_ne_true hg
    refine ⟨?_, ?_, fun _ => ?_⟩
    · simp [makeProposalSuccess, hg', hself, hcond]
    · simp [makeDecisionSuccess, hg', hself, hcond]
    · simp [makeProposalSuccess, makeDecisionSuccess, hg']

/-- A round-1 state and a round-2 response, on which the guard holds. -/
def round2Response : GameState :=
  { current_round := 2
    game_over := false
    human_score := 7
    ai_score := 3
    winner := none
    player_name := none
    messages := [] }

/-- Claim C4, witness: `C4_aiPropose_schedule` applied to a round-1 → round-2
transition (schedules `aiPropose`) and to a game-over response (does not). -/
theorem C4_aiPropose_schedule_witness :
    (makeProposalSuccess round1FreshState round2Response {}).scheduled =
        [] ++ [ClientAction.aiPropose]
      ∧ (makeProposalSuccess round1FreshState
            { round2Response with current_round := 7, game_over := true }
            {}).scheduled = ([] : List ClientAction) :=
  ⟨(C4_aiPropose_schedule round1FreshState round2Response {}).1.mpr (by decide),
    ((C4_aiPropose_schedule round1FreshState
        { round2Response with current_round := 7, game_over := true } {}).2.2
      (Or.inr rfl)).1⟩

/-- Whitespace recognised by JavaScript `String.prototype.trim`, restricted
to the ASCII whitespace characters. -/
def isJsSpace (c : Char) : Bool :=
  c == ' ' || c == '\t' || c == '\n' || c == '\r' || c == '\x0b' || c == '\x0c'

/-- JavaScript `String.prototype.trim` on a string viewed as a character
list: drop whitespace from the front, then from the back. -/
def jsTrim (s : List Char) : List Char :=
  List.rdropWhile isJsSpace (s.dropWhile isJsSpace)

/-- A list whose front drop is itself keeps that property after a back drop:
the back drop produces a prefix, so the head (which fails `p`) survives. -/
lemma dropWhile_rdropWhile_fix {α : Type} (p : α → Bool) (l : List α)
    (h : l.dropWhile p = l) :
    (List.rdropWhile p l).dropWhile p = List.rdropWhile p l := by
  rw [List.dropWhile_eq_self_iff]
  intro hl
  have hpre : List.rdropWhile p l <+: l := List.rdropWhile_prefix p l
  have hl' : 0 < l.length := lt_of_lt_of_le hl (List.IsPrefix.length_le hpre)
  have hhead : (List.rdropWhile p l).get ⟨0, hl⟩ = l.get ⟨0, hl'⟩ := by
    simp only [List.get_eq_getElem]
    exact List.IsPrefix.getElem hpre hl
  rw [hhead]
  exact List.dropWhile_eq_self_iff.mp h hl'

/-- `jsTrim` is idempotent. -/
lemma jsTrim_idem (s : List Char) : jsTrim (jsTrim s) = jsTrim s := by
  unfold jsTrim
  rw [dropWhile_rdropWhile_fix isJsSpace (s.dropWhile isJsSpace)
      (List.dropWhile_idempotent isJsSpace s),
    List.rdropWhile_idempotent]

/-- The observable outcome of `submitPlayerName`: either an early return with
no PATCH request and no state change, or a PATCH request carrying the given
`player_name`. -/
inductive NameSubmission
  | noRequest
  | patchRequest (player_name : List Char)
deriving DecidableEq, Repr

/-- Embedding of `submitPlayerName` in `src/unnamed/part_000`: it computes
`trimmedName = playerName.trim()`, returns before touching any state when
the result is empty, and otherwise PATCHes `{ player_name: trimmedName }`. -/
def submitPlayerName (playerName : List Char) : NameSubmission :=
  let trimmedName := jsTrim playerName
  if trimmedName = [] then NameSubmission.noRequest
  else NameSubmission.patchRequest trimmedName

/-- Embedding of `submitPlayerName` in `src/frontend/src/App.js`: it returns
early when `playerName.trim()` is empty and otherwise PATCHes the untrimmed
`{ player_name: playerName }`. -/
def submitPlayerNameLegacy (playerName : List Char) : NameSubmission :=
  if jsTrim playerName = [] then NameSubmission.noRequest
  else NameSubmission.patchRequest playerName

/-- Claim C5: a name submission never issues a PATCH for a name that is
empty after trimming — both variants return without any request then — and
whenever a PATCH is issued, the name it carries trims to a nonempty string. -/
theorem C5_player_name_trimmed (playerName : List Char) :
    (jsTrim playerName = [] →
      submitPlayerName playerName = NameSubmission.noRequest ∧
        submitPlayerNameLegacy playerName = NameSubmission.noRequest)
      ∧ (jsTrim playerName ≠ [] →
          ∃ sent, submitPlayerName playerName = NameSubmission.patchRequest sent ∧
            jsTrim sent ≠ [])
      ∧ (jsTrim playerName ≠ [] →
          ∃ sent, submitPlayerNameLegacy playerName = NameSubmission.patchRequest sent ∧
            jsTrim sent ≠ []) := by
  refine ⟨fun he => ?_, fun hne => ?_, fun hne => ?_⟩
  · constructor <;> simp [submitPlayerName, submitPlayerNameLegacy, he]
  · refine ⟨jsTrim playerName, ?_, ?_⟩
    · simp [submitPlayerName, hne]
    · rw [jsTrim_idem]
      exact hne
  · exact ⟨playerName, by simp [submitPlayerNameLegacy, hne], hne⟩

/-- Claim C5, witness: `C5_player_name_trimmed` applied to the whitespace
name " " (no request) and to " Bob " (a request whose name trims nonempty). -/
theorem C5_player_name_trimmed_witness :
    (submitPlayerName [' '] = NameSubmission.noRequest ∧
      submitPlayerNameLegacy [' '] = NameSubmission.noRequest)
      ∧ (∃ sent, submitPlayerName [' ', 'B', 'o', 'b', ' '] =
            NameSubmission.patchRequest sent ∧ jsTrim sent ≠ []) :=
  ⟨(C5_player_name_trimmed [' ']).1 (by decide),
    (C5_player_name_trimmed [' ', 'B', 'o', 'b', ' ']).2.1 (by decide)⟩

/-- JavaScript truthiness of `!gameState.player_name`: the name is missing
when the field is null or the empty string. -/
def jsNameMissing (player_name : Option String) : Bool :=
  match player_name with
  | none => true
  | some s => s == ""

/-- Embedding of the name-dialog effect: it runs
`setShowNameDialog(true)` exactly when `gameState?.game_over &&
isWinner(gameState) && !gameState.player_name && !showNameDialog`, and
otherwise leaves `showNameDialog` unchanged.  The result is the value of
`showNameDialog` after the effect. -/
def nameDialogEffect (gameState : Option GameState) (showNameDialog : Bool) : Bool :=
  match gameState with
  | none => showNameDialog
  | some gs =>
    if gs.game_over && isWinner (some gs) && jsNameMissing gs.player_name &&
        !showNameDialog then
      true
    else showNameDialog

/-- Claim C6: the leaderboard-name prompt opens (transitions from hidden to
shown) iff the game is over, `isWinner` holds, the session has no
`player_name`, and the dialog is not already shown; it never opens for a
session still in progress or one that is already named. -/
theorem C6_name_dialog (gameState : Option GameState) (showNameDialog : Bool) :
    ((nameDialogEffect gameState showNameDialog = true ∧ showNameDialog = false) ↔
      ∃ gs, gameState = some gs ∧ gs.game_over = true ∧ isWinner (some gs) = true ∧
        jsNameMissing gs.player_name = true ∧ showNameDialog = false)
      ∧ (∀ gs, gameState = some gs →
          gs.game_over = false ∨ jsNameMissing gs.player_name = false →
          nameDialogEffect gameState showNameDialog = showNameDialog) := by
  constructor
  · constructor
    · rintro ⟨heff, hsd⟩
      rcases gameState with _ | gs
      · rw [nameDialogEffect] at heff
        rw [heff] at hsd
        exact absurd hsd (by decide)
      · refine ⟨gs, rfl, ?_⟩
        by_cases hc : (gs.game_over && isWinner (some gs) &&
            jsNameMissing gs.player_name && !showNameDialog) = true
        · simp only [Bool.and_eq_true, Bool.not_eq_true'] at hc
          exact ⟨hc.1.1.1, hc.1.1.2, hc.1.2, hc.2⟩
        · rw [nameDialogEffect] at heff
          rw [if_neg hc] at heff
          rw [heff] at hsd
          exact absurd hsd (by decide)
    · rintro ⟨gs, hgs, hover, hwin, hmiss, hsd⟩
      subst hgs
      refine ⟨?_, hsd⟩
      rw [nameDialogEffect, if_pos]
      rw [hover, hwin, hmiss, hsd]
      rfl
  · intro gs hgs hcase
    subst hgs
    rw [nameDialogEffect, if_neg]
    rcases hcase with hcase | hcase <;> rw [hcase] <;> simp

/-- Claim C6, witness: `C6_name_dialog` at a finished winning unnamed session
(the dialog opens) and at the running empty-ledger state (it stays closed). -/
theorem C6_name_dialog_witness :
    nameDialogEffect
        (some { aiProposalState with game_over := true, human_score := 35 }) false = true
      ∧ nameDialogEffect (some evenRoundEmptyState) false = false :=
  ⟨((C6_name_dialog
      (some { aiProposalState with game_over := true, human_score := 35 }) false).1.mpr
      ⟨_, rfl, rfl, by decide, rfl, rfl⟩).1,
    (C6_name_dialog (some evenRoundEmptyState) false).2 evenRoundEmptyState rfl
      (Or.inl rfl)⟩

/-- The events that drive the `proposalMessage` / `decisionMessage` React
state: a textarea change with some raw value, or the reset to `''` performed
after a successful request. -/
inductive InputEvent
  | change (value : List Char)
  | clear
deriving DecidableEq, Repr

/-- Embedding of `handleProposalMessageChange`:
`setProposalMessage(e.target.value.slice(0, 256))`. -/
def handleProposalMessageChange (value : List Char) : List Char :=
  value.take 256

/-- Embedding of `handleDecisionMessageChange`:
`setDecisionMessage(e.target.value.slice(0, 256))`. -/
def handleDecisionMessageChange (value : List Char) : List Char :=
  value.take 256

/-- One step of the `proposalMessage` state. -/
def proposalMessageStep (_state : List Char) (e : InputEvent) : List Char :=
  match e with
  | InputEvent.change value => handleProposalMessageChange value
  | InputEvent.clear => []

/-- One step of the `decisionMessage` state. -/
def decisionMessageStep (_state : List Char) (e : InputEvent) : List Char :=
  match e with
  | InputEvent.change value => handleDecisionMessageChange value
  | InputEvent.clear => []

/-- A length bound of 256 is preserved by every input event. -/
lemma messageStep_cap (events : List InputEvent) :
    ∀ st : List Char, st.length ≤ 256 →
      (events.foldl proposalMessageStep st).length ≤ 256 ∧
        (events.foldl decisionMessageStep st).length ≤ 256 := by
  induction events with
  | nil => exact fun st hst => ⟨hst, hst⟩
  | cons e rest ih =>
    intro st hst
    have h1 : (proposalMessageStep st e).length ≤ 256 := by
      cases e with
      | change value =>
        show (handleProposalMessageChange value).length ≤ 256
        rw [handleProposalMessageChange]
        simp [List.length_take]
      | clear => simp [proposalMessageStep]
    have h2 : (decisionMessageStep st e).length ≤ 256 := by
      cases e with
      | change value =>
        show (handleDecisionMessageChange value).length ≤ 256
        rw [handleDecisionMessageChange]
        simp [List.length_take]
      | clear => simp [decisionMessageStep]
    rw [List.foldl_cons, List.foldl_cons]
    exact ⟨(ih _ h1).1, (ih _ h2).2⟩

/-- Claim C7: starting from the initial value `''`, after any sequence of
input-change and clear events the `proposalMessage` and `decisionMessage`
state values (the values sent as the `message` field of `/propose` and
`/decide` request bodies) have length at most 256. -/
theorem C7_message_cap (events : List InputEvent) :
    (events.foldl proposalMessageStep []).length ≤ 256 ∧
      (events.foldl decisionMessageStep []).length ≤ 256 :=
  messageStep_cap events [] (by simp)

/-- The `sort_by` values of the leaderboard query. -/
inductive SortBy
  | score
  | difference
deriving DecidableEq, Repr

/-- The React state driving leaderboard queries: `leaderboardSort`,
`leaderboardPage` and `leaderboardTotalPages`. -/
structure LeaderboardNav where
  leaderboardSort : SortBy
  leaderboardPage : Int
  leaderboardTotalPages : Int
deriving DecidableEq, Repr

/-- The initial values: `useState('score')`, `useState(1)`, `useState(1)`. -/
def lbInit : LeaderboardNav :=
  { leaderboardSort := SortBy.score, leaderboardPage := 1, leaderboardTotalPages := 1 }

/-- The events acting on the leaderboard state: the two sort buttons, the
two pager buttons of `LeaderboardControls`, and a `fetchLeaderboard`
response storing `data.total_pages`. -/
inductive NavEvent
  | sortScoreClick
  | sortDifferenceClick
  | prevPageClick
  | nextPageClick
  | leaderboardFetched (total_pages : Int)
deriving DecidableEq, Repr

/-- One step of the leaderboard state: the sort buttons run
`setLeaderboardSort(...)` and `setLeaderboardPage(1)`, the pager buttons run
`setLeaderboardPage(p => Math.max(1, p - 1))` and
`setLeaderboardPage(p => Math.min(leaderboardTotalPages, p + 1))`, and a
fetch response runs `setLeaderboardTotalPages(data.total_pages)`. -/
def navStep (st : LeaderboardNav) (e : NavEvent) : LeaderboardNav :=
  match e with
  | NavEvent.sortScoreClick =>
    { st with leaderboardSort := SortBy.score, leaderboardPage := 1 }
  | NavEvent.sortDifferenceClick =>
    { st with leaderboardSort := SortBy.difference, leaderboardPage := 1 }
  | NavEvent.prevPageClick =>
    { st with leaderboardPage := max 1 (st.leaderboardPage - 1) }
  | NavEvent.nextPageClick =>
    { st with leaderboardPage := min st.leaderboardTotalPages (st.leaderboardPage + 1) }
  | NavEvent.leaderboardFetched total_pages =>
    { st with leaderboardTotalPages := total_pages }

/-- Every fetched `total_pages` value in the event list is at least 1 —
the backend contract (`totalPages` is at least 1 even when empty). -/
def fetchedTotalsValid (events : List NavEvent) : Bool :=
  events.all fun e =>
    match e with
    | NavEvent.leaderboardFetched total_pages => decide (1 ≤ total_pages)
    | _ => true

/-- `1 ≤ page` and `1 ≤ totalPages` are preserved by every event whose
fetched totals are at least 1. -/
lemma navStep_bounds (events : List NavEvent) :
    ∀ st : LeaderboardNav, fetchedTotalsValid events = true →
      1 ≤ st.leaderboardPage → 1 ≤ st.leaderboardTotalPages →
      1 ≤ (events.foldl navStep st).leaderboardPage ∧
        1 ≤ (events.foldl navStep st).leaderboardTotalPages := by
  induction events with
  | nil => exact fun st _ hp ht => ⟨hp, ht⟩
  | cons e rest ih =>
    intro st hvalid hp ht
    rw [fetchedTotalsValid, List.all_cons, Bool.and_eq_true] at hvalid
    have hrest : fetchedTotalsValid rest = true := hvalid.2
    rw [List.foldl_cons]
    refine ih (navStep st e) hrest ?_ ?_
    · cases e with
      | sortScoreClick => exact le_refl 1
      | sortDifferenceClick => exact le_refl 1
      | prevPageClick =>
        show (1 : Int) ≤ max 1 (st.leaderboardPage - 1)
        omega
      | nextPageClick =>
        show (1 : Int) ≤ min st.leaderboardTotalPages (st.leaderboardPage + 1)
        omega
      | leaderboardFetched total_pages => exact hp
    · cases e with
      | sortScoreClick => exact ht
      | sortDifferenceClick => exact ht
      | prevPageClick => exact ht
      | nextPageClick => exact ht
      | leaderboardFetched total_pages =>
        have := hvalid.1
        simp only [decide_eq_true_eq] at this
        exact this

/-- Claim C8: starting from page 1, after any sequence of sort clicks, pager
clicks and fetch responses whose `total_pages` values are at least 1, the
`leaderboardPage` driving the next query is at least 1. -/
theorem C8_page_lower_bound (events : List NavEvent)
    (h : fetchedTotalsValid events = true) :
    1 ≤ (events.foldl navStep lbInit).leaderboardPage :=
  (navStep_bounds events lbInit h (le_refl 1) (le_refl 1)).1

/-- A navigation trace: fetch 3 pages, page forward twice, switch sort,
page back once. -/
def navTrace : List NavEvent :=
  [NavEvent.leaderboardFetched 3, NavEvent.nextPageClick, NavEvent.nextPageClick,
    NavEvent.sortDifferenceClick, NavEvent.prevPageClick]

/-- Claim C8, witness: `C8_page_lower_bound` on the concrete trace. -/
theorem C8_page_lower_bound_witness :
    fetchedTotalsValid navTrace = true ∧
      1 ≤ (navTrace.foldl navStep lbInit).leaderboardPage :=
  ⟨by decide, C8_page_lower_bound navTrace (by decide)⟩

/-- The temporary proposer message built by `makeProposal` before the
request: `{ player: 'human', proposal: proposalPoints, message:
proposalMessage, round_num: gameState.current_round, role: 'proposer' }`.
The `tag` is the fresh object identity of the literal. -/
def tempProposalMessage (gs : GameState) (proposalPoints : Int)
    (proposalMessage : List Char) (tag : Nat) : Message :=
  { player := Player.human
    role := Role.proposer
    proposal := some proposalPoints
    decision := none
    message := proposalMessage
    round_num := gs.current_round
    tag := tag }

/-- The optimistic update of `makeProposal`:
`setGameState(prev => ({ ...prev, messages: [...prev.messages, tempMessage] }))`. -/
def optimisticProposalAppend (prev : GameState) (temp : Message) : GameState :=
  { prev with messages := prev.messages ++ [temp] }

/-- The error handler of `makeProposal`:
`setGameState(prev => ({ ...prev, messages: prev.messages.filter(m => m !== tempMessage) }))`. -/
def proposalErrorRollback (st : GameState) (temp : Message) : GameState :=
  { st with messages := st.messages.filter fun m => decide (m ≠ temp) }

/-- Appending a fresh element and then filtering it out restores the list. -/
lemma filter_ne_append_fresh {α : Type} [DecidableEq α] (l : List α) (a : α)
    (h : a ∉ l) :
    (l ++ [a]).filter (fun m => decide (m ≠ a)) = l := by
  rw [List.filter_append]
  have h1 : l.filter (fun m => decide (m ≠ a)) = l :=
    List.filter_eq_self.mpr fun b hb =>
      decide_eq_true fun hba => h (hba ▸ hb)
  have h2 : [a].filter (fun m => decide (m ≠ a)) = [] := by simp
  rw [h1, h2, List.append_nil]

/-- Claim C9: when the `/propose` request fails, the error handler removes
the optimistic temporary message — which, being a fresh object, is
reference-distinct from every message already in the list — and the game
state is restored to exactly its pre-call value. -/
theorem C9_propose_rollback (prev : GameState) (proposalPoints : Int)
    (proposalMessage : List Char) (tag : Nat)
    (h : tempProposalMessage prev proposalPoints proposalMessage tag ∉ prev.messages) :
    proposalErrorRollback
        (optimisticProposalAppend prev
          (tempProposalMessage prev proposalPoints proposalMessage tag))
        (tempProposalMessage prev proposalPoints proposalMessage tag) = prev := by
  rw [proposalErrorRollback, optimisticProposalAppend]
  have hmsg := filter_ne_append_fresh prev.messages
    (tempProposalMessage prev proposalPoints proposalMessage tag) h
  cases prev
  simp only at hmsg ⊢
  rw [hmsg]

/-- Claim C9, witness: `C9_propose_rollback` on a concrete state holding one
earlier message, with a fresh temporary message. -/
theorem C9_propose_rollback_witness :
    tempProposalMessage aiProposalState 6 ['h', 'i'] 2 ∉ aiProposalState.messages ∧
      proposalErrorRollback
          (optimisticProposalAppend aiProposalState
            (tempProposalMessage aiProposalState 6 ['h', 'i'] 2))
          (tempProposalMessage aiProposalState 6 ['h', 'i'] 2) = aiProposalState :=
  ⟨by decide, C9_propose_rollback aiProposalState 6 ['h', 'i'] 2 (by decide)⟩

end Unfairness
